import Mathlib

/-
Shallow embedding of src/Code/noaa_weatherdata_downloader.py.

The script has four components, embedded here as pure functions:
 - weatherdata_download_and_save (lines 79-155): bounded retry loop with
   byte-range resume; modelled by `attemptWrite` (the per-attempt file write,
   lines 113-142) and `download_go` (the attempt loop, lines 110-155).
 - weatherdata_extract_file (lines 158-200): member-by-member tar extraction
   followed by deletion of the archive; modelled by `extract_go`.
 - extract_state_abbreviation (lines 203-232): a search with the regular
   expression \b([A-Z]{2})\s*,?\s*US\b; modelled character by character on
   `String.data` (inputs are ASCII station names).
 - usa_weatherstation_filter (lines 235-323): per-file classification of the
   listing of the "All" directory, summary/sentinel artifact, and the guarded
   rename of "All" to "Rest"; modelled by `classify_go` and
   `usa_weatherstation_filter`.
 - the main loop (lines 330-356): locate-or-download, extract, classify;
   modelled by `pipelineRun` on an abstract filesystem state `FS`.

Effects are made explicit: the directory listing becomes a `List Entry`
(one entry per name returned by os.listdir, in listing order), reading a
CSV becomes a `ParseOutcome`, a raised exception becomes an aborted/errored
flag, and the final directory layout is a `Location` per entry.
-/

/-! ## ResumableFetcher: weatherdata_download_and_save -/

/-- One download attempt's file write, lines 113-142 of the source: the file
is opened in append mode ("ab") and the whole response body is written after
whatever bytes are already on disk, for status 200 (full content) exactly as
for status 206 (partial content).  `existing` is the byte content of the
partial file on disk ([] when the file is absent), `status` the HTTP status,
`body` the response body.  Returns the resulting file content on a 2xx
status, `none` when the attempt fails (any other status: nothing written). -/
def attemptWrite (existing : List Nat) (status : Nat) (body : List Nat) : Option (List Nat) :=
  if status = 200 ∨ status = 206 then some (existing ++ body) else none

/-- The attempt loop of weatherdata_download_and_save, lines 110-155: one
Bool per attempt (`true` = the HTTP request returned 200/206 and streaming
completed; `false` = bad status or a raised RequestException).  The list has
one element per available attempt, so its length is max_retries.  Returns
(the attempt number returned as the file path on success or `none` after all
attempts failed, the number of attempts actually made). -/
def download_go : List Bool → Nat → Option Nat × Nat
  | [], _ => (none, 0)
  | ok :: rest, attempt =>
    if ok then (some attempt, 1)
    else ((download_go rest (attempt + 1)).1, (download_go rest (attempt + 1)).2 + 1)

/-- weatherdata_download_and_save, attempts numbered from 1 as in
`for attempt in range(1, max_retries + 1)`. -/
def weatherdata_download_and_save (outcomes : List Bool) : Option Nat × Nat :=
  download_go outcomes 1

/-- The orchestrator's `while True` loop, lines 343-350: re-invoke the
fetcher until one invocation returns a path.  `invocations k` is the result
of the k-th fetcher invocation; `fuel` bounds the unrolling of the loop in
this model (the source loop is unbounded). -/
def fetchLoop (invocations : Nat → Option String) : Nat → Nat → Option String
  | 0, _ => none
  | fuel + 1, k =>
    match invocations k with
    | some p => some p
    | none => fetchLoop invocations fuel (k + 1)

/-- Lines 337-353: the archive path handed to extraction is the located
file when find_existing_tar_file found one, otherwise the result of the
unbounded fetch loop. -/
def yearAcquire (located : Option String) (invocations : Nat → Option String)
    (fuel : Nat) : Option String :=
  match located with
  | some p => some p
  | none => fetchLoop invocations fuel 0

/-! ## ArchiveExtractor: weatherdata_extract_file -/

/-- Outcome of one call to weatherdata_extract_file. -/
structure ExtractResult where
  extractedCount : Nat
  archiveDeleted : Bool
  errored : Bool
deriving DecidableEq, Repr

/-- Lines 183-197: members are extracted one by one in order; a failing
`tar.extract` raises, so later members are not processed and the
`os.remove(tar_file_path)` on line 197 is never reached.  One Bool per
member of `tar.getmembers()`: `true` = that member extracts without error.
`n` counts members already extracted. -/
def extract_go : List Bool → Nat → ExtractResult
  | [], n => ⟨n, true, false⟩
  | ok :: rest, n =>
    if ok then extract_go rest (n + 1)
    else ⟨n, false, true⟩

/-- weatherdata_extract_file, lines 158-200, over the member list. -/
def weatherdata_extract_file (members : List Bool) : ExtractResult :=
  extract_go members 0

/-! ## extract_state_abbreviation: the regex \b([A-Z]{2})\s*,?\s*US\b -/

/-- [A-Z] of the pattern. -/
def upperAZ (c : Char) : Bool := 'A' ≤ c && c ≤ 'Z'

/-- \w for the word boundaries \b (the station names are ASCII). -/
def isWordChar (c : Char) : Bool :=
  ('A' ≤ c && c ≤ 'Z') || ('a' ≤ c && c ≤ 'z') || ('0' ≤ c && c ≤ '9') || c == '_'

/-- \s of the pattern: space, tab, newline, carriage return, vertical tab,
form feed (the ASCII whitespace Python's \s matches). -/
def isSpaceChar (c : Char) : Bool :=
  c == ' ' || c == '\t' || c == '\n' || c == '\r' || c.toNat == 11 || c.toNat == 12

/-- The trailing \b of the pattern: end of string or a non-word character. -/
def boundaryAfterUS : List Char → Bool
  | [] => true
  | c :: _ => !isWordChar c

/-- \s*,?\s*US\b on the characters following the two-letter code.  The
character classes \s, ',' and 'U' are disjoint, so the greedy deterministic
scan (skip spaces, take at most one comma, skip spaces, require "US") matches
exactly the strings the backtracking regex engine accepts here.  Returns the
characters after the match, or `none`. -/
def sepThenUS (l : List Char) : Option (List Char) :=
  match (match l.dropWhile isSpaceChar with
         | ',' :: t => t.dropWhile isSpaceChar
         | l1 => l1) with
  | 'U' :: 'S' :: rest => if boundaryAfterUS rest then some rest else none
  | _ => none

/-- Whether the whole pattern matches at the current position: `prev` is the
character just before the position (`none` at the start of the string), so
\b holds exactly when `prev` is absent or a non-word character (the first
matched character is [A-Z], a word character). -/
def matchAt (prev : Option Char) (l : List Char) : Option (Char × Char) :=
  match l with
  | c1 :: c2 :: rest =>
    if (match prev with | none => true | some p => !isWordChar p)
        && upperAZ c1 && upperAZ c2 && (sepThenUS rest).isSome
    then some (c1, c2) else none
  | _ => none

/-- re.search: try the pattern at each position from the left, first match
wins. -/
def searchFrom (prev : Option Char) : List Char → Option (Char × Char)
  | [] => none
  | c :: rest =>
    match matchAt prev (c :: rest) with
    | some r => some r
    | none => searchFrom (some c) rest

/-- extract_state_abbreviation, lines 203-232: `match.group(1)`, the two
letters, as a string, or `None` when the pattern does not occur. -/
def extract_state_abbreviation (s : String) : Option String :=
  (searchFrom none s.data).map (fun p => String.mk [p.1, p.2])

/-- Modelled from the spec: the claim's characterisation "two uppercase
letters form a standalone token immediately preceding the country marker
'US', with an optional comma and/or space between them" at one position:
a word boundary before the two letters AND a token boundary (non-word
character) right after them, followed by the optional comma/space separator
and the 'US' marker ending at a word boundary. -/
def specStandaloneAt (prev : Option Char) (l : List Char) : Bool :=
  match l with
  | c1 :: c2 :: rest =>
    (match prev with | none => true | some p => !isWordChar p)
      && upperAZ c1 && upperAZ c2
      && (match rest with | [] => false | d :: _ => !isWordChar d)
      && (sepThenUS rest).isSome
  | _ => false

/-- Modelled from the spec: the standalone-token condition holds somewhere
in the string. -/
def specStandaloneSearch (prev : Option Char) : List Char → Bool
  | [] => false
  | c :: rest => specStandaloneAt prev (c :: rest) || specStandaloneSearch (some c) rest

/-- Modelled from the spec: some two-letter code occurs as a standalone
token immediately before the 'US' marker. -/
def specStandaloneCodeBeforeUS (s : String) : Bool :=
  specStandaloneSearch none s.data

/-! ## RecordClassifier: usa_weatherstation_filter -/

/-- What reading one listed entry yields.  `err` stands for any exception
raised by `pd.read_csv(csv_filepath)` or by `csv_df.loc[0, 'NAME']`
(malformed file, missing NAME column, empty table, or the path being a
directory); `noName` is a present-but-NaN NAME cell (the `pd.notna` check on
line 275); `name s` is a string NAME value in the first data row. -/
inductive ParseOutcome where
  | err : ParseOutcome
  | noName : ParseOutcome
  | name : String → ParseOutcome
deriving DecidableEq, Repr

/-- One name returned by `os.listdir(raw_data_directory)` (line 255): a file
or a subdirectory directly inside the "All" directory.  `nested` lists the
files inside a subdirectory entry; the classifier never touches it, so those
files stay inside their directory wherever the directory ends up.  `parse` is
what reading the entry as a CSV would yield (a directory always raises, see
`readOutcome`). -/
structure Entry where
  fname : String
  isDir : Bool
  nested : List String
  parse : ParseOutcome
deriving DecidableEq, Repr

/-- Reading an entry: `pd.read_csv` on a directory path raises. -/
def readOutcome (e : Entry) : ParseOutcome :=
  if e.isDir then ParseOutcome.err else e.parse

/-- `filename.endswith('.csv')` of line 255. -/
def endsWithCsv (s : String) : Bool :=
  match s.data.reverse with
  | 'v' :: 's' :: 'c' :: '.' :: _ => true
  | _ => false

/-- `station_name[-2:] == 'US'` of lines 278-280 (for a string shorter than
two characters the Python slice is the whole string, which cannot equal
"US"). -/
def isUSCountry (s : String) : Bool :=
  match s.data.reverse with
  | 'S' :: 'U' :: _ => true
  | _ => false

/-- What the loop body (lines 262-303) does with one listed entry. -/
inductive FileAction where
  | abort : FileAction
  | skip : FileAction
  | move : String → FileAction
deriving DecidableEq, Repr

/-- Per-entry behaviour of the classification loop: entries not named
*.csv are never in `csv_files` and are untouched; reading a csv-named entry
may raise (aborting the whole function, since there is no try/except around
lines 269-272); a NaN NAME, a non-US country suffix or a failed state
extraction leave the file in place; otherwise the file is moved to the state
folder (lines 291-300). -/
def fileAction (e : Entry) : FileAction :=
  if endsWithCsv e.fname then
    match readOutcome e with
    | ParseOutcome.err => FileAction.abort
    | ParseOutcome.noName => FileAction.skip
    | ParseOutcome.name s =>
      if isUSCountry s then
        match extract_state_abbreviation s with
        | some st => FileAction.move st
        | none => FileAction.skip
      else FileAction.skip
  else FileAction.skip

/-- The classification loop over the directory listing, indexing entries by
their position `i` in the listing.  Returns the moves performed, in order,
as (entry index, state code) pairs, and whether the loop aborted with an
exception.  Moves performed before an exception persist (the files were
already moved on disk); entries after the failing one are not processed. -/
def classify_go : List Entry → Nat → List (Nat × String) × Bool
  | [], _ => ([], false)
  | e :: rest, i =>
    match fileAction e with
    | FileAction.abort => ([], true)
    | FileAction.skip => classify_go rest (i + 1)
    | FileAction.move st =>
      ((i, st) :: (classify_go rest (i + 1)).1, (classify_go rest (i + 1)).2)

/-- Observable outcome of one usa_weatherstation_filter call.  When the loop
aborts, the exception propagates before lines 305-323, so neither the
summary CSV nor the sentinel text file is written and the rename is not
attempted. -/
structure FilterResult where
  moves : List (Nat × String)
  aborted : Bool
  summaryWritten : Bool
  sentinelWritten : Bool
  renamed : Bool
deriving DecidableEq, Repr

/-- usa_weatherstation_filter, lines 235-323.  `restExists` is whether the
"{year} Weather Station Data - Rest" directory already exists (line 321);
the raw "All" directory itself exists whenever the function runs, since
`os.listdir` succeeded on it, so the rename on line 322 happens exactly when
the loop completed and Rest was absent.  The summary CSV is written iff the
summary list is non-empty (lines 305-309), which is iff some file was moved
(lines 297-303 append to both together); otherwise the sentinel text file is
written (lines 312-316). -/
def usa_weatherstation_filter (entries : List Entry) (restExists : Bool) : FilterResult :=
  match classify_go entries 0 with
  | (mv, true) => ⟨mv, true, false, false, false⟩
  | (mv, false) => ⟨mv, false, !mv.isEmpty, mv.isEmpty, !restExists⟩

/-- Where one listed entry sits after the call: a state subfolder of the
USA tree, the renamed Rest directory, or the never-renamed All directory. -/
inductive Location where
  | usa : String → Location
  | all : Location
  | rest : Location
deriving DecidableEq, Repr

/-- Final location of the entry at listing position `i`: moved files are in
their state folder; everything else stays in the raw directory, which is
renamed to Rest exactly when the rename on line 322 ran. -/
def finalLocation (entries : List Entry) (restExists : Bool) (i : Nat) : Location :=
  match (usa_weatherstation_filter entries restExists).moves.find? (fun p => p.1 == i) with
  | some p => Location.usa p.2
  | none =>
    if (usa_weatherstation_filter entries restExists).renamed then Location.rest
    else Location.all

/-- Membership in the partition the spec describes: a region folder or the
Rest folder (the never-renamed All directory is neither). -/
def inRegionOrRest : Location → Bool
  | Location.usa _ => true
  | Location.rest => true
  | Location.all => false

/-! ## YearPipeline: the main loop, lines 330-356 -/

/-- Filesystem facts the main loop branches on, per YearKey: whether a
"{year}.tar.gz" exists anywhere under the parent folder, whether the
"... - All" directory exists, whether the "... - Rest" directory exists. -/
structure FS where
  tarExists : Bool
  allExists : Bool
  restExists : Bool
deriving DecidableEq, Repr

/-- find_existing_tar_file, lines 67-76: a recursive search that succeeds
exactly when some "{year}.tar.gz" is present. -/
def find_existing_tar_file (fs : FS) : Bool := fs.tarExists

/-- Trace of one main-loop iteration for a year. -/
structure RunTrace where
  downloaded : Bool
  extracted : Bool
  renamed : Bool
  fs : FS
deriving DecidableEq, Repr

/-- One main-loop iteration (lines 330-356) that runs to completion: if the
locator finds no archive, the unbounded fetch loop downloads one (the model
assumes the download eventually succeeds, as the loop guarantees on
success); extraction then always runs and `os.remove` on line 197 deletes
the archive, recreating the "All" directory; classification renames All to
Rest exactly when Rest was absent (line 321), leaving All in place
otherwise. -/
def pipelineRun (fs : FS) : RunTrace :=
  { downloaded := !find_existing_tar_file fs
    extracted := true
    renamed := !fs.restExists
    fs := { tarExists := false, allExists := fs.restExists, restExists := true } }

/-- Shared sample listing: a CSV that classifies to state CA, a CSV for a
non-US station, and a non-CSV entry whose content could not be parsed. -/
def sampleEntries : List Entry :=
  [⟨"a.csv", false, [], ParseOutcome.name "STATION A, CA US"⟩,
   ⟨"b.csv", false, [], ParseOutcome.name "STATION B, FR"⟩,
   ⟨"readme.txt", false, [], ParseOutcome.err⟩]

/-! ## Helper lemmas -/

theorem classify_go_cons (e : Entry) (rest : List Entry) (k : Nat) :
    classify_go (e :: rest) k =
      match fileAction e with
      | FileAction.abort => ([], true)
      | FileAction.skip => classify_go rest (k + 1)
      | FileAction.move st =>
        ((k, st) :: (classify_go rest (k + 1)).1, (classify_go rest (k + 1)).2) := rfl

theorem fileAction_move_csv (e : Entry) (st : String)
    (h : fileAction e = FileAction.move st) : endsWithCsv e.fname = true := by
  cases hc : endsWithCsv e.fname
  · rw [fileAction, hc] at h
    simp at h
  · rfl

theorem classify_go_key_ge (l : List Entry) :
    ∀ k p, p ∈ (classify_go l k).1 → k ≤ p.1 := by
  induction l with
  | nil => intro k p hp; simp [classify_go] at hp
  | cons e rest ih =>
    intro k p hp
    rw [classify_go_cons] at hp
    cases ha : fileAction e <;> rw [ha] at hp
    case abort => simp at hp
    case skip => exact Nat.le_of_succ_le (ih (k + 1) p hp)
    case move st =>
      simp only [List.mem_cons] at hp
      cases hp with
      | inl h => rw [h]
      | inr h => exact Nat.le_of_succ_le (ih (k + 1) p h)

theorem classify_go_keys_nodup (l : List Entry) :
    ∀ k, ((classify_go l k).1.map Prod.fst).Nodup := by
  induction l with
  | nil => intro k; simp [classify_go]
  | cons e rest ih =>
    intro k
    rw [classify_go_cons]
    cases ha : fileAction e
    case abort => simp
    case skip => exact ih (k + 1)
    case move st =>
      refine List.nodup_cons.mpr ⟨?_, ih (k + 1)⟩
      intro hmem
      obtain ⟨p, hp, hfst⟩ := List.mem_map.mp hmem
      have := classify_go_key_ge rest (k + 1) p hp
      omega

theorem classify_go_mem (l : List Entry) :
    ∀ k p, p ∈ (classify_go l k).1 →
      ∃ e, l.get? (p.1 - k) = some e ∧ fileAction e = FileAction.move p.2 := by
  induction l with
  | nil => intro k p hp; simp [classify_go] at hp
  | cons e rest ih =>
    intro k p hp
    rw [classify_go_cons] at hp
    cases ha : fileAction e <;> rw [ha] at hp
    case abort => simp at hp
    case skip =>
      obtain ⟨e2, hget, hact⟩ := ih (k + 1) p hp
      have hk := classify_go_key_ge rest (k + 1) p hp
      refine ⟨e2, ?_, hact⟩
      have hmk : p.1 - k = (p.1 - (k + 1)) + 1 := by omega
      rw [hmk, List.get?_cons_succ]
      exact hget
    case move st =>
      simp only [List.mem_cons] at hp
      cases hp with
      | inl h =>
        subst h
        exact ⟨e, by simp, ha⟩
      | inr h =>
        obtain ⟨e2, hget, hact⟩ := ih (k + 1) p h
        have hk := classify_go_key_ge rest (k + 1) p h
        refine ⟨e2, ?_, hact⟩
        have hmk : p.1 - k = (p.1 - (k + 1)) + 1 := by omega
        rw [hmk, List.get?_cons_succ]
        exact hget

theorem filter_moves (entries : List Entry) (restExists : Bool) :
    (usa_weatherstation_filter entries restExists).moves = (classify_go entries 0).1 := by
  unfold usa_weatherstation_filter
  rcases h : classify_go entries 0 with ⟨mv, ab⟩
  cases ab <;> simp

theorem filter_renamed (entries : List Entry) (restExists : Bool)
    (hab : (usa_weatherstation_filter entries restExists).aborted = false) :
    (usa_weatherstation_filter entries restExists).renamed = !restExists := by
  unfold usa_weatherstation_filter at hab ⊢
  rcases h : classify_go entries 0 with ⟨mv, ab⟩
  cases ab
  · rfl
  · rw [h] at hab
    exact Bool.noConfusion hab

theorem extract_go_spec (l : List Bool) (n : Nat) :
    extract_go l n =
      ⟨n + (l.takeWhile (fun b => b)).length, l.all (fun b => b), !l.all (fun b => b)⟩ := by
  induction l generalizing n with
  | nil => simp [extract_go, List.takeWhile]
  | cons b rest ih =>
    cases b
    · simp [extract_go, List.takeWhile_cons, List.all_cons]
    · simp [extract_go, List.takeWhile_cons, List.all_cons, ih, ExtractResult.mk.injEq]
      omega

theorem download_go_attempts_le (l : List Bool) :
    ∀ k, (download_go l k).2 ≤ l.length := by
  induction l with
  | nil => intro k; simp [download_go]
  | cons b rest ih =>
    intro k
    cases b
    · simpa [download_go] using Nat.succ_le_succ (ih (k + 1))
    · simp [download_go]

theorem download_go_none_iff (l : List Bool) :
    ∀ k, ((download_go l k).1 = none ↔ l.all (fun b => !b) = true) := by
  induction l with
  | nil => intro k; simp [download_go]
  | cons b rest ih =>
    intro k
    cases b
    · simpa [download_go, List.all_cons] using ih (k + 1)
    · simp [download_go, List.all_cons]

theorem download_go_some (l : List Bool) :
    ∀ k m, (download_go l k).1 = some m →
      k ≤ m ∧ l.get? (m - k) = some true ∧ ∀ j, j < m - k → l.get? j = some false := by
  induction l with
  | nil => intro k m h; simp [download_go] at h
  | cons b rest ih =>
    intro k m h
    cases b
    case false =>
      have h2 : (download_go rest (k + 1)).1 = some m := by
        simpa [download_go] using h
      obtain ⟨hk, hget, hprev⟩ := ih (k + 1) m h2
      refine ⟨Nat.le_of_succ_le hk, ?_, ?_⟩
      · have hmk : m - k = (m - (k + 1)) + 1 := by omega
        rw [hmk, List.get?_cons_succ]
        exact hget
      · intro j hj
        cases j with
        | zero => rfl
        | succ j2 =>
          have : j2 < m - (k + 1) := by omega
          rw [List.get?_cons_succ]
          exact hprev j2 this
    case true =>
      have hm : k = m := by simpa [download_go] using h
      subst hm
      refine ⟨Nat.le_refl k, ?_, ?_⟩
      · simp
      · intro j hj
        omega

theorem fetchLoop_isSome (inv : Nat → Option String) :
    ∀ fuel k n, n < fuel → (inv (k + n)).isSome = true →
      (fetchLoop inv fuel k).isSome = true := by
  intro fuel
  induction fuel with
  | zero => intro k n hn _; omega
  | succ fuel ih =>
    intro k n hn hs
    have hstep : fetchLoop inv (fuel + 1) k =
        match inv k with
        | some p => some p
        | none => fetchLoop inv fuel (k + 1) := rfl
    rw [hstep]
    cases hk : inv k with
    | some p => simp
    | none =>
      simp only []
      cases n with
      | zero =>
        rw [Nat.add_zero, hk] at hs
        simp at hs
      | succ n2 =>
        refine ih (k + 1) n2 (by omega) ?_
        have harg : k + 1 + n2 = k + (n2 + 1) := by omega
        rw [harg]
        exact hs

theorem yearAcquire_isSome (located : Option String) (inv : Nat → Option String)
    (fuel : Nat) (h : located.isSome = true ∨ ∃ n, n < fuel ∧ (inv n).isSome = true) :
    (yearAcquire located inv fuel).isSome = true := by
  cases located with
  | some p => rfl
  | none =>
    cases h with
    | inl h2 => simp at h2
    | inr h2 =>
      obtain ⟨n, hn, hs⟩ := h2
      unfold yearAcquire
      exact fetchLoop_isSome inv fuel 0 n hn (by simpa using hs)

/-! ## Claims -/

/-- C1: the claim requires the fetcher, on a full-content (200) answer to a
range request over a non-empty partial file, to restart from byte zero or
detect the mismatch, and never to append the full body after the partial
bytes.  The code (lines 113-142) treats 200 exactly like 206 and opens the
file in append mode, so at the failing input (partial file [1] on disk,
status 200, full body [1, 2]) it produces the concatenation [1] ++ [1, 2],
which differs from the true file content [1, 2]. -/
theorem c1_full_response_appended :
    attemptWrite [1] 200 [1, 2] = some [1, 1, 2] ∧
    ([1, 1, 2] : List Nat) = [1] ++ [1, 2] ∧
    ([1, 1, 2] : List Nat) ≠ [1, 2] := by
  refine ⟨rfl, rfl, by decide⟩

/-- C2 counterexample: starting from a fresh filesystem (no archive, no
directories), a first completed pipeline run deletes the archive during
extraction, so the second run's locator finds nothing and the second run
downloads and extracts again — refuting the claim that the second run
performs no download and no extraction. -/
theorem c2_counterexample :
    (pipelineRun (pipelineRun ⟨false, false, false⟩).fs).downloaded = true ∧
    (pipelineRun (pipelineRun ⟨false, false, false⟩).fs).extracted = true := by
  exact ⟨rfl, rfl⟩

/-- C2 amended: running the pipeline twice for the same YearKey, with run
1's completed WorkingTree present, re-downloads (the extractor deleted the
archive at the end of run 1, so find_existing_tar_file fails) and re-extracts
(extraction always follows acquisition); the All-to-Rest rename is skipped
in run 2 because Rest already exists, so the recreated All directory is left
in place alongside Rest. -/
theorem c2_second_run_redownloads (fs : FS) :
    (pipelineRun (pipelineRun fs).fs).downloaded = true ∧
    (pipelineRun (pipelineRun fs).fs).extracted = true ∧
    (pipelineRun (pipelineRun fs).fs).renamed = false ∧
    (pipelineRun (pipelineRun fs).fs).fs.allExists = true ∧
    (pipelineRun (pipelineRun fs).fs).fs.restExists = true := by
  exact ⟨rfl, rfl, rfl, rfl, rfl⟩

/-- C3: the claim requires classification to survive one malformed record
file, treating it as a non-match.  The code has no per-file exception
handling around pd.read_csv (line 269), so a malformed first file aborts the
whole function: nothing is moved, no summary, no sentinel, no rename — even
though the remaining file on its own would classify to state CA. -/
theorem c3_malformed_aborts :
    (usa_weatherstation_filter
      [⟨"bad.csv", false, [], ParseOutcome.err⟩,
       ⟨"good.csv", false, [], ParseOutcome.name "STATION A, CA US"⟩] false) =
      ⟨[], true, false, false, false⟩ ∧
    (usa_weatherstation_filter
      [⟨"good.csv", false, [], ParseOutcome.name "STATION A, CA US"⟩] false).moves
      = [(0, "CA")] := by
  exact ⟨by decide, by decide⟩

/-- C4 counterexample: on the input "ABUS" the regex extracts "AB" (its \b
anchors only the front of the two letters, and the comma/space separator is
optional), although "AB" is not a standalone token immediately preceding the
marker — so the claim's "only when two uppercase letters form a standalone
token" characterisation is false. -/
theorem c4_counterexample :
    extract_state_abbreviation "ABUS" = some "AB" ∧
    specStandaloneCodeBeforeUS "ABUS" = false := by
  exact ⟨rfl, rfl⟩

/-- C4 amended: the three example strings behave as the claim states
("PORTAGE GLACIER VISITOR CENTER, AK US" gives "AK"; "LONDON HEATHROW, GB"
and "SOME STATION US" give none), but extraction requires only a word
boundary before the two uppercase letters, not a standalone token: the
letters may be glued directly to the marker, as in "ABUS" which gives
"AB". -/
theorem c4_extraction_examples :
    extract_state_abbreviation "PORTAGE GLACIER VISITOR CENTER, AK US" = some "AK" ∧
    extract_state_abbreviation "LONDON HEATHROW, GB" = none ∧
    extract_state_abbreviation "SOME STATION US" = none ∧
    extract_state_abbreviation "ABUS" = some "AB" := by
  exact ⟨rfl, rfl, rfl, rfl⟩

/-- C5 counterexample: when a Rest directory for the year already exists,
the rename on line 322 is skipped, so after a completed classification run a
non-matching record file is still in the never-renamed All directory — in
neither a region folder nor Rest — refuting the unconditional partition
claim. -/
theorem c5_counterexample :
    (usa_weatherstation_filter
      [⟨"a.csv", false, [], ParseOutcome.name "LONDON, GB"⟩] true).aborted = false ∧
    inRegionOrRest
      (finalLocation [⟨"a.csv", false, [], ParseOutcome.name "LONDON, GB"⟩] true 0)
      = false := by
  exact ⟨by decide, by decide⟩

/-- C5 amended: provided the classification run completes without a raised
exception and no Rest directory pre-exists, every listed record file ends in
exactly one place — a state folder when it was moved, the Rest folder
otherwise — and no file is duplicated (the recorded move indices are
pairwise distinct, and the final location is a single value per file, never
the limbo All directory). -/
theorem c5_partition (entries : List Entry) (i : Nat)
    (hab : (usa_weatherstation_filter entries false).aborted = false)
    (_hi : i < entries.length) :
    ((usa_weatherstation_filter entries false).moves.map Prod.fst).Nodup ∧
    ((∃ st, finalLocation entries false i = Location.usa st) ∨
      finalLocation entries false i = Location.rest) ∧
    finalLocation entries false i ≠ Location.all := by
  have hrn := filter_renamed entries false hab
  have hloc : finalLocation entries false i = Location.rest ∨
      ∃ st, finalLocation entries false i = Location.usa st := by
    unfold finalLocation
    cases hf : (usa_weatherstation_filter entries false).moves.find? (fun p => p.1 == i) with
    | some p => right; exact ⟨p.2, rfl⟩
    | none => left; rw [hrn]; simp
  refine ⟨?_, ?_, ?_⟩
  · rw [filter_moves]
    exact classify_go_keys_nodup entries 0
  · cases hloc with
    | inl h => right; exact h
    | inr h => left; exact h
  · cases hloc with
    | inl h => rw [h]; simp
    | inr h => obtain ⟨st, h⟩ := h; rw [h]; simp

/-- Witness for C5 at a concrete listing: the run completes, the listing
has a second entry, and that non-matching file's final location is not the
All directory. -/
theorem c5_partition_witness :
    (usa_weatherstation_filter sampleEntries false).aborted = false ∧
    1 < sampleEntries.length ∧
    finalLocation sampleEntries false 1 ≠ Location.all := by
  refine ⟨by decide, by decide, (c5_partition sampleEntries 1 (by decide) (by decide)).2.2⟩

/-- C6: the extractor deletes the archive exactly when every listed member
extracted without error (and then the number of extracted members is the
whole member list); a failing member leaves the archive in place, stops
extraction at that member, and surfaces as an error that halts the pipeline
for that YearKey. -/
theorem c6_delete_after_full_extraction (members : List Bool) :
    (weatherdata_extract_file members).archiveDeleted = members.all (fun b => b) ∧
    (weatherdata_extract_file members).errored = !(members.all (fun b => b)) ∧
    (weatherdata_extract_file members).extractedCount
      = (members.takeWhile (fun b => b)).length := by
  unfold weatherdata_extract_file
  rw [extract_go_spec]
  exact ⟨rfl, rfl, by simp⟩

/-- C7: one fetcher invocation makes at most max_retries attempts (one per
element of `outcomes`), returns `none` exactly when every attempt failed,
and on success returns at the first successful attempt; and whenever an
archive was located or some invocation of the unbounded outer loop succeeds,
the value handed to extraction is a present path — extraction is never
entered without a successful download or a located archive. -/
theorem c7_retry_bound (outcomes : List Bool) (located : Option String)
    (inv : Nat → Option String) (fuel : Nat)
    (hacq : located.isSome = true ∨ ∃ n, n < fuel ∧ (inv n).isSome = true) :
    (weatherdata_download_and_save outcomes).2 ≤ outcomes.length ∧
    ((weatherdata_download_and_save outcomes).1 = none ↔
      outcomes.all (fun b => !b) = true) ∧
    (∀ m, (weatherdata_download_and_save outcomes).1 = some m →
      1 ≤ m ∧ outcomes.get? (m - 1) = some true ∧
        ∀ j, j < m - 1 → outcomes.get? j = some false) ∧
    (yearAcquire located inv fuel).isSome = true := by
  refine ⟨download_go_attempts_le outcomes 1, download_go_none_iff outcomes 1, ?_, ?_⟩
  · intro m hm
    exact download_go_some outcomes 1 m hm
  · exact yearAcquire_isSome located inv fuel hacq

/-- Witness for C7 at concrete inputs: two attempts where the second
succeeds, no located archive, and an outer loop whose second invocation
succeeds within fuel 3. -/
theorem c7_retry_bound_witness :
    ((fun n => if n = 1 then some "path" else none) 1).isSome = true ∧
    (1 : Nat) < 3 ∧
    (weatherdata_download_and_save [false, true]).2 ≤ 2 ∧
    (yearAcquire none (fun n => if n = 1 then some "path" else none) 3).isSome = true := by
  refine ⟨rfl, by decide, ?_, ?_⟩
  · exact (c7_retry_bound [false, true] none
      (fun n => if n = 1 then some "path" else none) 3 (Or.inr ⟨1, by decide, rfl⟩)).1
  · exact (c7_retry_bound [false, true] none
      (fun n => if n = 1 then some "path" else none) 3 (Or.inr ⟨1, by decide, rfl⟩)).2.2.2

/-- C8: a completed classification run writes the summary index iff at
least one file was moved to a region folder, writes the sentinel marker iff
none was, and never writes both (or neither). -/
theorem c8_summary_sentinel_exclusive (entries : List Entry) (restExists : Bool)
    (hab : (usa_weatherstation_filter entries restExists).aborted = false) :
    (usa_weatherstation_filter entries restExists).summaryWritten
      = !(usa_weatherstation_filter entries restExists).moves.isEmpty ∧
    (usa_weatherstation_filter entries restExists).sentinelWritten
      = (usa_weatherstation_filter entries restExists).moves.isEmpty ∧
    (usa_weatherstation_filter entries restExists).summaryWritten
      ≠ (usa_weatherstation_filter entries restExists).sentinelWritten := by
  unfold usa_weatherstation_filter at hab ⊢
  rcases h : classify_go entries 0 with ⟨mv, ab⟩
  cases ab
  · cases hmv : mv.isEmpty <;> simp [hmv]
  · rw [h] at hab
    exact Bool.noConfusion hab

/-- Witness for C8 at the sample listing, which completes and moves one
file: the summary is written and the sentinel is not. -/
theorem c8_summary_sentinel_witness :
    (usa_weatherstation_filter sampleEntries false).aborted = false ∧
    (usa_weatherstation_filter sampleEntries false).summaryWritten
      = !(usa_weatherstation_filter sampleEntries false).moves.isEmpty := by
  refine ⟨by decide, (c8_summary_sentinel_exclusive sampleEntries false (by decide)).1⟩

/-- C9: at the end of a completed classification run, the All directory is
renamed to Rest iff no Rest directory already existed; when Rest exists the
rename is skipped and every unmoved file stays in the All directory. -/
theorem c9_rename_guard (entries : List Entry) (restExists : Bool)
    (hab : (usa_weatherstation_filter entries restExists).aborted = false) :
    ((usa_weatherstation_filter entries restExists).renamed = true ↔ restExists = false) ∧
    (restExists = true → ∀ i,
      (usa_weatherstation_filter entries restExists).moves.find? (fun p => p.1 == i) = none →
      finalLocation entries restExists i = Location.all) := by
  have hrn := filter_renamed entries restExists hab
  constructor
  · rw [hrn]; cases restExists <;> simp
  · intro hre i hf
    unfold finalLocation
    rw [hf, hrn, hre]
    simp

/-- Witness for C9 at the sample listing with no pre-existing Rest
directory: the run completes and the rename happens. -/
theorem c9_rename_guard_witness :
    (usa_weatherstation_filter sampleEntries false).aborted = false ∧
    ((usa_weatherstation_filter sampleEntries false).renamed = true ↔ false = false) := by
  refine ⟨by decide, (c9_rename_guard sampleEntries false (by decide)).1⟩

/-- C10: classification only examines csv-named entries of the listing
(every recorded move points at one); an entry not named *.csv is never
moved, and after a completed run with no pre-existing Rest directory it ends
up under Rest — together with any files nested inside it if it is a
subdirectory, since the classifier never descends into entries. -/
theorem c10_frame (entries : List Entry) (i : Nat) (e : Entry)
    (hab : (usa_weatherstation_filter entries false).aborted = false)
    (hget : entries.get? i = some e)
    (hcsv : endsWithCsv e.fname = false) :
    (usa_weatherstation_filter entries false).moves.find? (fun p => p.1 == i) = none ∧
    finalLocation entries false i = Location.rest ∧
    ∀ p ∈ (usa_weatherstation_filter entries false).moves, ∃ e2,
      entries.get? p.1 = some e2 ∧ endsWithCsv e2.fname = true := by
  have honly : ∀ p ∈ (usa_weatherstation_filter entries false).moves, ∃ e2,
      entries.get? p.1 = some e2 ∧ endsWithCsv e2.fname = true := by
    intro p hp
    rw [filter_moves] at hp
    obtain ⟨e2, hg, hact⟩ := classify_go_mem entries 0 p hp
    rw [Nat.sub_zero] at hg
    exact ⟨e2, hg, fileAction_move_csv e2 p.2 hact⟩
  have hnone : (usa_weatherstation_filter entries false).moves.find?
      (fun p => p.1 == i) = none := by
    rw [List.find?_eq_none]
    intro p hp hpred
    obtain ⟨e2, hg, hc2⟩ := honly p hp
    have hpi : p.1 = i := by simpa using hpred
    rw [hpi, hget] at hg
    have he : e = e2 := by injection hg
    rw [← he] at hc2
    rw [hcsv] at hc2
    exact Bool.false_ne_true hc2
  refine ⟨hnone, ?_, honly⟩
  unfold finalLocation
  rw [hnone, filter_renamed entries false hab]
  simp

/-- Witness for C10 at the sample listing: the non-csv entry "readme.txt"
(position 2) is never moved and ends up under Rest. -/
theorem c10_frame_witness :
    (usa_weatherstation_filter sampleEntries false).aborted = false ∧
    sampleEntries.get? 2 = some ⟨"readme.txt", false, [], ParseOutcome.err⟩ ∧
    endsWithCsv "readme.txt" = false ∧
    finalLocation sampleEntries false 2 = Location.rest := by
  refine ⟨by decide, by decide, by decide,
    (c10_frame sampleEntries 2 ⟨"readme.txt", false, [], ParseOutcome.err⟩
      (by decide) (by decide) (by decide)).2.1⟩
